import Mathlib

/-!
Verification of the Flora factorized moment estimator and its optimizer
assembly (MANGA-UOFA/Flora).  The definitions below are a shallow embedding
of `src/optimizers/optax/flora.py`, `src/optimizers/optax/adafactor.py` and
`src/data/utils.py`: tensors are runtime shapes with rational entry
functions, the jax PRNG is an abstract deterministic key model, and the
per-layer update functions are transcribed statement by statement.
-/

set_option maxRecDepth 8192
set_option linter.unusedVariables false

namespace Flora

/-- Dense tensor: a runtime shape together with an entry function over
multi-indices.  Mirrors the jax arrays flowing through the optimizer;
shapes are data, so shape claims are genuine propositions. -/
structure Tensor where
  shape : List Nat
  entry : List Nat → Rat

/-- The all-zero tensor of a given shape (`jnp.zeros`). -/
def zeros (shape : List Nat) : Tensor := ⟨shape, fun _ => 0⟩

/-- `jnp.zeros_like(t)`. -/
def zerosLike (t : Tensor) : Tensor := zeros t.shape

instance : Inhabited Tensor := ⟨zeros []⟩

/-- Scalar multiplication `c * A`, elementwise (scalar on the left). -/
def smulT (c : Rat) (A : Tensor) : Tensor := ⟨A.shape, fun i => c * A.entry i⟩

/-- Scalar multiplication `A * c`, elementwise (scalar on the right). -/
def mulSR (A : Tensor) (c : Rat) : Tensor := ⟨A.shape, fun i => A.entry i * c⟩

/-- Elementwise addition `A + B`.  The operands always share a shape in the
source, and numpy keeps the common shape; we keep the left operand's. -/
def addT (A B : Tensor) : Tensor := ⟨A.shape, fun i => A.entry i + B.entry i⟩

/-- Elementwise division by a scalar, `A / c`. -/
def divT (A : Tensor) (c : Rat) : Tensor := ⟨A.shape, fun i => A.entry i / c⟩

/-- Matrix transpose `A.T` for rank-2 tensors: reverses the shape and the
multi-index. -/
def trT (A : Tensor) : Tensor := ⟨A.shape.reverse, fun i => A.entry i.reverse⟩

/-- Matrix product `A @ B` for rank-2 tensors: the result has the row count
of `A` and the column count of `B`, with entries given by the usual sum of
products over the inner dimension of `A`. -/
def matmul (A B : Tensor) : Tensor :=
  ⟨[A.shape.headD 0, B.shape.getD 1 0], fun i =>
    match i with
    | [r, c] => ∑ k ∈ Finset.range (A.shape.getD 1 0), A.entry [r, k] * B.entry [k, c]
    | _ => 0⟩

/-- Static configuration of `scale_by_flora` (the arguments of the Python
closure that stay fixed across steps). -/
structure FloraCfg where
  factored : Bool
  beta : Rat
  tau : Nat
  kappa : Nat
  rng_only : Bool
  min_dim_size_to_factor : Nat
  side : String

/-- Modelled from the spec (section 4.2 RandomStream): the repo's
`src/optimizers/optax/utils.py` (holding `next_rng_key`,
`random_split_like_tree` and the internals of `random_generate`) is not
under `src/`, so the splittable deterministic PRNG is abstracted: `split1`
and `split2` are the two halves of `jax.random.split(key, 2)`, `next` is
`next_rng_key`, `treeKey rng i` is the per-leaf sub-key that
`random_split_like_tree rng` assigns to leaf `i`, and `gen key rows cols i
j` is entry `(i, j)` of the matrix `random_generate(key, (rows, cols))`.
All are pure functions of the key, as the spec requires. -/
structure RngModel where
  split1 : Nat → Nat
  split2 : Nat → Nat
  next : Nat → Nat
  treeKey : Nat → Nat → Nat
  gen : Nat → Nat → Nat → Nat → Nat → Rat

/-- The tensor `random_generate(key, (rows, cols))`: shape `[rows, cols]`
with entries supplied by the PRNG model. -/
def genT (R : RngModel) (key rows cols : Nat) : Tensor :=
  ⟨[rows, cols], fun i =>
    match i with
    | [a, b] => R.gen key rows cols a b
    | _ => 0⟩

/-- `should_factorize(params)` from `scale_by_flora`, as a function of the
parameter's shape: factorization must be globally enabled, the tensor rank
must be 2, the aspect ratio may not exceed 16, and the small side must
reach `min_dim_size_to_factor`. -/
def shouldFactorize (cfg : FloraCfg) (shape : List Nat) : Bool :=
  if cfg.factored = false then false
  else if shape.length ≠ 2 then false
  else
    match shape with
    | [a, b] =>
      if Nat.max a b > Nat.min a b * 16 then false
      else decide (Nat.min a b ≥ cfg.min_dim_size_to_factor)
    | _ => false

/-- The configuration of `flora()` with all defaults (`b1 = 0.9`, `tau = 4`,
`kappa = 1000`, `rng_only = False`, `min_dim_size_to_factor = 128`,
`side = "auto"`). -/
def defaultCfg : FloraCfg :=
  { factored := true
    beta := 9 / 10
    tau := 4
    kappa := 1000
    rng_only := false
    min_dim_size_to_factor := 128
    side := "auto" }

/-- Projection representation.  Modelled from the spec (section 3, design
note on the implicit seed-as-projection representation): the repo's
`TwoSideRandomDecomposition` NamedTuple lives in the missing utils module
and stores, in the same `proj` field, a materialized random matrix or (in
`rng_only` mode) only the PRNG key that regenerates it; here the two cases
are an explicit sum. -/
inductive ProjRep where
  | mat (t : Tensor)
  | seed (k : Nat)

/-- The four optional fields of `TwoSideRandomDecomposition`, in the order
of its uses in `flora.py`. -/
structure TwoSide where
  r_data : Option Tensor
  r_proj : Option ProjRep
  l_data : Option Tensor
  l_proj : Option ProjRep

/-- Per-parameter decomposition: `NaiveDecomposition(data)` or
`TwoSideRandomDecomposition(...)` (spec section 3, tagged union). -/
inductive Decomposition where
  | naive (data : Tensor)
  | factored (t : TwoSide)

instance : Inhabited Decomposition := ⟨.naive default⟩

/-- Accessor for `dcomp.data` (defaulting for the factored variant, which
the source would only reach through a type error). -/
def Decomposition.dataD : Decomposition → Tensor
  | .naive t => t
  | .factored _ => default

/-- Accessor for `dcomp.l_data`. -/
def Decomposition.lDataO : Decomposition → Option Tensor
  | .factored t => t.l_data
  | .naive _ => none

/-- Accessor for `dcomp.l_proj`. -/
def Decomposition.lProjO : Decomposition → Option ProjRep
  | .factored t => t.l_proj
  | .naive _ => none

/-- Accessor for `dcomp.r_data`. -/
def Decomposition.rDataO : Decomposition → Option Tensor
  | .factored t => t.r_data
  | .naive _ => none

/-- Accessor for `dcomp.r_proj`. -/
def Decomposition.rProjO : Decomposition → Option ProjRep
  | .factored t => t.r_proj
  | .naive _ => none

/-- Whether a decomposition is the factored variant. -/
def Decomposition.isFactored : Decomposition → Bool
  | .factored _ => true
  | .naive _ => false

/-- The stored key of a projection field, for `rng_only` mode. -/
def projSeedD : Option ProjRep → Nat
  | some (.seed k) => k
  | _ => 0

/-- The stored matrix of a projection field, for materialized mode. -/
def projMatD : Option ProjRep → Tensor
  | some (.mat t) => t
  | _ => default

/-- Side resolution shared by `_init_layer`, both update paths and `query`:
`_side = ("right" if outd > ind else "left") if side == "auto" else side`. -/
def resolveSide (side : String) (ind outd : Nat) : String :=
  if side = "auto" then (if outd > ind then "right" else "left") else side

/-- `_init_layer(params, key)` of `scale_by_flora.init_fn`: factorized
parameters get zero compressed data and random (or seed-only) projections
on the populated side(s); others get a zero naive buffer. -/
def initLayer (cfg : FloraCfg) (R : RngModel) (params : Tensor) (key : Nat) :
    Decomposition :=
  if shouldFactorize cfg params.shape then
    let ind := params.shape.headD 0
    let outd := params.shape.getD 1 0
    let lKey := R.split1 key
    let rKey := R.split2 key
    let s := resolveSide cfg.side ind outd
    Decomposition.factored
      { r_data := if s ≠ "left" then some (zeros [outd, cfg.tau]) else none
        r_proj :=
          if s ≠ "left" then
            some (if cfg.rng_only then ProjRep.seed rKey
                  else ProjRep.mat (genT R rKey cfg.tau ind))
          else none
        l_data := if s ≠ "right" then some (zeros [cfg.tau, ind]) else none
        l_proj :=
          if s ≠ "right" then
            some (if cfg.rng_only then ProjRep.seed lKey
                  else ProjRep.mat (genT R lKey outd cfg.tau))
          else none }
  else Decomposition.naive (zerosLike params)

/-- `_naive_fn(grad, dcomp, key)`: plain exponential decay
`beta * dcomp.data + (1 - beta) * grad`. -/
def naiveFn (cfg : FloraCfg) (grad : Tensor) (dcomp : Decomposition) :
    Decomposition :=
  Decomposition.naive
    (addT (smulT cfg.beta dcomp.dataD) (smulT (1 - cfg.beta) grad))

/-- `_full_layer_fn(grad, dcomp, key)` of `update_state`: the refresh path.
Fresh projections are drawn (from the split of the per-leaf key, or, in
`rng_only` mode, from the successor of the stored key), the previous data
is re-projected through old and new projections (the `multi_dot` history
term) and blended with the newly projected gradient by exponential decay. -/
def fullLayerFn (cfg : FloraCfg) (R : RngModel) (grad : Tensor)
    (dcomp : Decomposition) (key : Nat) : Decomposition :=
  if shouldFactorize cfg grad.shape = false then naiveFn cfg grad dcomp
  else
    let ind := grad.shape.headD 0
    let outd := grad.shape.getD 1 0
    let s := resolveSide cfg.side ind outd
    let lKey := R.split1 key
    let rKey := R.split2 key
    let lProjOld :=
      if cfg.rng_only then genT R (projSeedD dcomp.lProjO) outd cfg.tau
      else projMatD dcomp.lProjO
    let lData := dcomp.lDataO.getD default
    let newLKey := if cfg.rng_only then R.next (projSeedD dcomp.lProjO) else lKey
    let newLProj := genT R newLKey outd cfg.tau
    let hisL := matmul (matmul (trT newLProj) lProjOld) lData
    let newLData :=
      addT (smulT cfg.beta hisL)
        (smulT (1 - cfg.beta) (matmul (trT newLProj) (trT grad)))
    let rProjOld :=
      if cfg.rng_only then genT R (projSeedD dcomp.rProjO) cfg.tau ind
      else projMatD dcomp.rProjO
    let rData := dcomp.rDataO.getD default
    let newRKey := if cfg.rng_only then R.next (projSeedD dcomp.rProjO) else rKey
    let newRProj := genT R newRKey cfg.tau ind
    let hisR := matmul (matmul rData rProjOld) (trT newRProj)
    let newRData :=
      addT (smulT cfg.beta hisR)
        (smulT (1 - cfg.beta) (matmul (trT grad) (trT newRProj)))
    Decomposition.factored
      { l_data := if s ≠ "right" then some newLData else none
        l_proj :=
          if s ≠ "right" then
            some (if cfg.rng_only then ProjRep.seed newLKey else ProjRep.mat newLProj)
          else none
        r_data := if s ≠ "left" then some newRData else none
        r_proj :=
          if s ≠ "left" then
            some (if cfg.rng_only then ProjRep.seed newRKey else ProjRep.mat newRProj)
          else none }

/-- `_partial_layer_fn(grad, dcomp, key)` of `update_state`: the
non-refresh path.  Projections are read (materializing from the stored key
in `rng_only` mode) but stored back unchanged; only the compressed data is
blended with the newly projected gradient by exponential decay. -/
def partLayerFn (cfg : FloraCfg) (R : RngModel) (grad : Tensor)
    (dcomp : Decomposition) (_key : Nat) : Decomposition :=
  if shouldFactorize cfg grad.shape = false then naiveFn cfg grad dcomp
  else
    let ind := grad.shape.headD 0
    let outd := grad.shape.getD 1 0
    let s := resolveSide cfg.side ind outd
    let lData := dcomp.lDataO.getD default
    let lProj :=
      if cfg.rng_only then genT R (projSeedD dcomp.lProjO) outd cfg.tau
      else projMatD dcomp.lProjO
    let rData := dcomp.rDataO.getD default
    let rProj :=
      if cfg.rng_only then genT R (projSeedD dcomp.rProjO) cfg.tau ind
      else projMatD dcomp.rProjO
    Decomposition.factored
      { l_data :=
          if s ≠ "right" then
            some (addT (smulT cfg.beta lData)
              (smulT (1 - cfg.beta) (matmul (trT lProj) (trT grad))))
          else none
        l_proj := if s ≠ "right" then dcomp.lProjO else none
        r_data :=
          if s ≠ "left" then
            some (addT (smulT cfg.beta rData)
              (smulT (1 - cfg.beta) (matmul (trT grad) (trT rProj))))
          else none
        r_proj := if s ≠ "left" then dcomp.rProjO else none }

/-- `ScaleByFloraState`: step counter, per-parameter decompositions (the
parameter tree modelled as a list of leaves) and the tree-level rng key. -/
structure FloraState where
  count : Nat
  decomposition : List Decomposition
  rng : Nat

/-- The per-leaf sub-keys `random_split_like_tree(rng, tree)` assigns to a
tree with `n` leaves. -/
def keysFor (R : RngModel) (rng n : Nat) : List Nat :=
  (List.range n).map (R.treeKey rng)

/-- `jax.tree_map(f, grads, decomposition, prngkey_tree)` on list-shaped
trees: apply `f` leafwise to the three aligned lists. -/
def mapLayers (f : Tensor → Decomposition → Nat → Decomposition) :
    List Tensor → List Decomposition → List Nat → List Decomposition
  | g :: gs, d :: ds, k :: ks => f g d k :: mapLayers f gs ds ks
  | _, _, _ => []

/-- `scale_by_flora.init_fn(params)`: count 0, per-leaf decompositions from
`_init_layer` with per-leaf sub-keys, and the root key as state rng. -/
def initState (cfg : FloraCfg) (R : RngModel) (seed : Nat)
    (params : List Tensor) : FloraState :=
  { count := 0
    decomposition :=
      List.zipWith (fun p k => initLayer cfg R p k) params
        (keysFor R seed params.length)
    rng := seed }

/-- `update_state(grads, state)`: split per-leaf keys from the state rng,
choose the full-refresh path when `count % kappa == 0` and the partial path
otherwise, advance `count` by one and advance the rng. -/
def updateState (cfg : FloraCfg) (R : RngModel) (grads : List Tensor)
    (st : FloraState) : FloraState :=
  let keys := keysFor R st.rng grads.length
  { count := st.count + 1
    decomposition :=
      if st.count % cfg.kappa = 0 then
        mapLayers (fullLayerFn cfg R) grads st.decomposition keys
      else
        mapLayers (partLayerFn cfg R) grads st.decomposition keys
    rng := R.next st.rng }

/-- `query._layer_fn(grads, dcomp)`: reconstruct the moment estimate from
the decomposition — naive buffer directly, otherwise the transposed
low-rank product on the resolved side, or the transposed average if the
resolved side is neither "left" nor "right". -/
def queryLayer (cfg : FloraCfg) (R : RngModel) (grad : Tensor)
    (dcomp : Decomposition) : Tensor :=
  if shouldFactorize cfg grad.shape = false then dcomp.dataD
  else
    let ind := grad.shape.headD 0
    let outd := grad.shape.getD 1 0
    let s := resolveSide cfg.side ind outd
    if s = "left" then
      let lProj :=
        if cfg.rng_only then genT R (projSeedD dcomp.lProjO) outd cfg.tau
        else projMatD dcomp.lProjO
      trT (matmul lProj (dcomp.lDataO.getD default))
    else if s = "right" then
      let rProj :=
        if cfg.rng_only then genT R (projSeedD dcomp.rProjO) cfg.tau ind
        else projMatD dcomp.rProjO
      trT (matmul (dcomp.rDataO.getD default) rProj)
    else
      let rProj :=
        if cfg.rng_only then genT R (projSeedD dcomp.rProjO) cfg.tau ind
        else projMatD dcomp.rProjO
      let lProj :=
        if cfg.rng_only then genT R (projSeedD dcomp.lProjO) outd cfg.tau
        else projMatD dcomp.lProjO
      divT
        (trT (addT (matmul (dcomp.rDataO.getD default) rProj)
          (matmul lProj (dcomp.lDataO.getD default)))) 2

/-- `query(grads, state)`: leafwise reconstruction over the tree. -/
def queryFn (cfg : FloraCfg) (R : RngModel) (grads : List Tensor)
    (st : FloraState) : List Tensor :=
  List.zipWith (fun g d => queryLayer cfg R g d) grads st.decomposition

/-- `update_fn(grads, state)` of `scale_by_flora` (the combined update):
query with the incoming state, blend `m * beta + g * (1 - beta)`, then
advance the state with `update_state`. -/
def updateFn (cfg : FloraCfg) (R : RngModel) (grads : List Tensor)
    (st : FloraState) : List Tensor × FloraState :=
  let updates := queryFn cfg R grads st
  let updates2 :=
    List.zipWith (fun m g => addT (mulSR m cfg.beta) (mulSR g (1 - cfg.beta)))
      updates grads
  (updates2, updateState cfg R grads st)

/-- Iterated `update_state` over a sequence of gradient trees. -/
def evolve (cfg : FloraCfg) (R : RngModel) (seq : List (List Tensor))
    (st : FloraState) : FloraState :=
  seq.foldl (fun s gs => updateState cfg R gs s) st

/-- Modelled from the spec (section 8, naive equivalence): one step of a
plain exponential-moving-average momentum estimator,
`data' = beta * data + (1 - beta) * grad`. -/
def emaStep (beta : Rat) (data grad : Tensor) : Tensor :=
  addT (smulT beta data) (smulT (1 - beta) grad)

/-- Population signature of a decomposition: the variant tag and which of
the four optional fields are populated. -/
def popSig : Decomposition → Bool × Bool × Bool × Bool × Bool
  | .naive _ => (false, false, false, false, false)
  | .factored t =>
      (true, t.l_data.isSome, t.l_proj.isSome, t.r_data.isSome, t.r_proj.isSome)

/-- The population signature the source derives from a shape: naive when
factorization is off, otherwise left fields iff the resolved side is not
"right" and right fields iff it is not "left". -/
def sigOfShape (cfg : FloraCfg) (shape : List Nat) :
    Bool × Bool × Bool × Bool × Bool :=
  if shouldFactorize cfg shape then
    let s := resolveSide cfg.side (shape.headD 0) (shape.getD 1 0)
    (true, decide (s ≠ "right"), decide (s ≠ "right"),
      decide (s ≠ "left"), decide (s ≠ "left"))
  else (false, false, false, false, false)

/-- Whether a factored decomposition has all four fields populated (the
auto-both-sides configuration triggered by a side that is neither "left"
nor "right" nor resolved from "auto"). -/
def bothPopulated : Decomposition → Bool
  | .factored t =>
      t.l_data.isSome && t.l_proj.isSome && t.r_data.isSome && t.r_proj.isSome
  | .naive _ => false

/-- Shape discipline of a stored projection: a materialized matrix of the
stated shape in materialized mode, a bare key in `rng_only` mode. -/
def projShapeOK (rngOnly : Bool) (p : ProjRep) (m n : Nat) : Prop :=
  match p with
  | .mat t => rngOnly = false ∧ t.shape = [m, n]
  | .seed _ => rngOnly = true

/-- Shape invariant a decomposition for a parameter of shape `ps` keeps
through the whole lifecycle: a naive buffer of shape `ps`, or factored
buffers of shapes `[tau, ind]` / `[outd, tau]` with projections of shapes
`[outd, tau]` / `[tau, ind]` on the populated side(s). -/
def ShapeInvLayer (cfg : FloraCfg) (ps : List Nat) (d : Decomposition) :
    Prop :=
  if shouldFactorize cfg ps then
    ∃ t, d = Decomposition.factored t ∧
      ((resolveSide cfg.side (ps.head?.getD 0) (ps[1]?.getD 0) ≠ "right" →
          (∃ x, t.l_data = some x ∧ x.shape = [cfg.tau, ps.head?.getD 0]) ∧
          (∃ p, t.l_proj = some p ∧
            projShapeOK cfg.rng_only p (ps[1]?.getD 0) cfg.tau)) ∧
       (resolveSide cfg.side (ps.head?.getD 0) (ps[1]?.getD 0) ≠ "left" →
          (∃ x, t.r_data = some x ∧ x.shape = [ps[1]?.getD 0, cfg.tau]) ∧
          (∃ p, t.r_proj = some p ∧
            projShapeOK cfg.rng_only p cfg.tau (ps.head?.getD 0))))
  else ∃ t, d = Decomposition.naive t ∧ t.shape = ps

/-- Tree-level shape invariant: one decomposition per parameter, each
satisfying the per-layer invariant for its parameter's shape. -/
def ShapeInvState (cfg : FloraCfg) (params : List Tensor) (st : FloraState) :
    Prop :=
  st.decomposition.length = params.length ∧
    ∀ j, j < params.length →
      ShapeInvLayer cfg (params.getD j default).shape
        (st.decomposition.getD j default)

/-- Tree-level population invariant: one decomposition per parameter, each
with the population signature the source derives from its parameter's
shape. -/
def SigInv (cfg : FloraCfg) (params : List Tensor) (st : FloraState) : Prop :=
  st.decomposition.length = params.length ∧
    ∀ j, j < params.length →
      popSig (st.decomposition.getD j default) =
        sigOfShape cfg (params.getD j default).shape

/-- One link of the transformation chain, with the standard
`update(updates, state, params) -> (updates, state)` signature. -/
structure TransformF (P U S : Type) where
  initF : P → S
  updF : U → S → P → U × S

/-- The chain `flora()` builds: the leading `scale_by_flora` transform,
then `scale_by_factored_rms` (whose update also receives the running
updates), then the remaining standard transforms (clipping, learning rate,
parameter scale, weight decay, sign flip). -/
structure FloraChain (P U S : Type) where
  t0_init : P → S
  t0_upd : U → S → P → U × S
  t1_init : P → S
  t1_upd : U → S → P → U → U × S
  rest : List (TransformF P U S)

/-- The chain `adafactor()` builds: an optional leading momentum transform,
the main transform (receiving the running updates and the `query_only`
flag), then the remaining standard transforms. -/
structure AdaChain (P U S : Type) where
  momentum : Option (TransformF P U S)
  main_init : P → S
  main_upd : U → S → P → U → Bool → U × S
  rest : List (TransformF P U S)

/-- The ValueError message both chain update functions raise on a state
arity mismatch. -/
def chainErrMsg : String :=
  "The number of updates and states has to be the same in chain! Make sure you have called init first!"

/-- Number of transforms (the `T` of the claim) in a flora chain. -/
def FloraChain.size {P U S : Type} (c : FloraChain P U S) : Nat :=
  2 + c.rest.length

/-- Number of transforms in an adafactor chain. -/
def AdaChain.size {P U S : Type} (c : AdaChain P U S) : Nat :=
  (if c.momentum.isSome then 1 else 0) + 1 + c.rest.length

/-- `init_fn(params)` of the flora chain: the tuple of each transform's own
init result, index-aligned. -/
def FloraChain.initChain {P U S : Type} (c : FloraChain P U S) (params : P) :
    List S :=
  c.t0_init params :: c.t1_init params :: c.rest.map (fun t => t.initF params)

/-- `init_fn(params)` of the adafactor chain. -/
def AdaChain.initChain {P U S : Type} (c : AdaChain P U S) (params : P) :
    List S :=
  (match c.momentum with
   | some t => [t.initF params]
   | none => []) ++
    c.main_init params :: c.rest.map (fun t => t.initF params)

/-- The trailing loop `for s, fn in zip(state[2:], update_fns[2:])` shared
by both chain update functions: thread the updates through the remaining
transforms, collecting their new states (zip truncates at the shorter
list, as in Python). -/
def runRest {P U S : Type} : List (TransformF P U S) → List S → P → U →
    U × List S
  | t :: ts, s :: ss, params, u =>
      let r := t.updF u s params
      let rr := runRest ts ss params r.1
      (rr.1, r.2 :: rr.2)
  | _, _, _, u => (u, [])

/-- `update_fn(grads, state, params)` of the flora chain: raise the arity
ValueError when the state tuple length differs from the number of
transforms, otherwise thread the first two special-cased transforms and
then the rest. -/
def FloraChain.updateChain {P U S : Type} (c : FloraChain P U S) (grads : U)
    (state : List S) (params : P) : Except String (U × List S) :=
  if c.size ≠ state.length then Except.error chainErrMsg
  else
    match state with
    | s0 :: s1 :: srest =>
        let r0 := c.t0_upd grads s0 params
        let r1 := c.t1_upd grads s1 params r0.1
        let rr := runRest c.rest srest params r1.1
        Except.ok (rr.1, r0.2 :: r1.2 :: rr.2)
    | _ => Except.error chainErrMsg

/-- `update_fn(grads, state, params, query_only)` of the adafactor chain:
same arity guard, then either the momentum-led or the momentum-free
threading. -/
def AdaChain.updateChain {P U S : Type} (c : AdaChain P U S) (grads : U)
    (state : List S) (params : P) (queryOnly : Bool) :
    Except String (U × List S) :=
  if c.size ≠ state.length then Except.error chainErrMsg
  else
    match c.momentum, state with
    | some t, s0 :: s1 :: srest =>
        let r0 := t.updF grads s0 params
        let r1 := c.main_upd grads s1 params r0.1 queryOnly
        let rr := runRest c.rest srest params r1.1
        Except.ok (rr.1, r0.2 :: r1.2 :: rr.2)
    | none, s0 :: srest =>
        let r0 := c.main_upd grads s0 params grads queryOnly
        let rr := runRest c.rest srest params r0.1
        Except.ok (rr.1, r0.2 :: rr.2)
    | _, _ => Except.error chainErrMsg

/-- Section sizes of `np.array_split(arr, k)` on an array of length `n`:
the first `n % k` sections have size `n / k + 1`, the rest size `n / k`. -/
def splitSizes (n k : Nat) : List Nat :=
  (List.range k).map (fun i => if i < n % k then n / k + 1 else n / k)

/-- Cut a list into consecutive chunks of the given sizes. -/
def takeChunks : List Nat → List Nat → List (List Nat)
  | [], _ => []
  | s :: ss, l => l.take s :: takeChunks ss (l.drop s)

/-- `data_loader` from `src/data/utils.py` at the level of index batches
(shuffle disabled, so `batch_idx = np.arange(len(dataset))`): with
`drop_last` the indices are truncated to `steps_per_epoch * batch_size`
and reshaped into rows of `batch_size`; otherwise they are split by
`np.array_split` into `ceil(n / batch_size)` sections. -/
def dataLoaderBatches (n bs : Nat) (dropLast : Bool) : List (List Nat) :=
  if dropLast then
    takeChunks (List.replicate (n / bs) bs) ((List.range n).take (n / bs * bs))
  else
    takeChunks (splitSizes n ((n + bs - 1) / bs)) (List.range n)

/-- Concrete deterministic PRNG model used to instantiate witnesses. -/
def wRng : RngModel :=
  { split1 := fun k => 2 * k + 1
    split2 := fun k => 2 * k + 2
    next := fun k => k + 1
    treeKey := fun r i => r + i
    gen := fun k m n i j => ((k + m + n + i + j : Nat) : Rat) }

/-- Concrete configuration used to instantiate witnesses: factorization on,
rank 1, refresh period 2, materialized projections, minimum dimension 1. -/
def wCfg : FloraCfg :=
  { factored := true
    beta := 1 / 2
    tau := 1
    kappa := 2
    rng_only := false
    min_dim_size_to_factor := 1
    side := "auto" }

/-- The witness configuration with factorization globally disabled
(`tau = None`). -/
def wCfgOff : FloraCfg :=
  { wCfg with factored := false }

/-- The witness configuration with the invalid side value "both". -/
def wCfgBoth : FloraCfg :=
  { wCfg with side := "both" }

/-- A concrete 1 x 1 all-ones parameter tensor for witnesses. -/
def wTensor : Tensor := ⟨[1, 1], fun _ => 1⟩

/-- The decomposition claim C1 predicts for a factorized tensor on a
refresh step, written from the claim's words: the projection is replaced
by a freshly generated random projection (drawn from the fresh split
sub-key, or in `rng_only` mode from the successor of the stored key), and
the new compressed data is
`beta * (new_l_proj^T @ old_l_proj @ old_l_data) +
(1-beta) * (new_l_proj^T @ grad^T)` on the left side, and symmetrically
`beta * (old_r_data @ old_r_proj @ new_r_proj^T) +
(1-beta) * (grad^T @ new_r_proj^T)` on the right side, on the side(s) the
resolved side populates. -/
def claimedRefresh (cfg : FloraCfg) (R : RngModel) (grad : Tensor)
    (dcomp : Decomposition) (key : Nat) : Decomposition :=
  let ind := grad.shape.headD 0
  let outd := grad.shape.getD 1 0
  let s := resolveSide cfg.side ind outd
  let oldLProj :=
    if cfg.rng_only then genT R (projSeedD dcomp.lProjO) outd cfg.tau
    else projMatD dcomp.lProjO
  let newLKey := if cfg.rng_only then R.next (projSeedD dcomp.lProjO)
    else R.split1 key
  let newLProj := genT R newLKey outd cfg.tau
  let oldRProj :=
    if cfg.rng_only then genT R (projSeedD dcomp.rProjO) cfg.tau ind
    else projMatD dcomp.rProjO
  let newRKey := if cfg.rng_only then R.next (projSeedD dcomp.rProjO)
    else R.split2 key
  let newRProj := genT R newRKey cfg.tau ind
  Decomposition.factored
    { l_data :=
        if s ≠ "right" then
          some (addT
            (smulT cfg.beta
              (matmul (matmul (trT newLProj) oldLProj)
                (dcomp.lDataO.getD default)))
            (smulT (1 - cfg.beta) (matmul (trT newLProj) (trT grad))))
        else none
      l_proj :=
        if s ≠ "right" then
          some (if cfg.rng_only then ProjRep.seed newLKey
                else ProjRep.mat newLProj)
        else none
      r_data :=
        if s ≠ "left" then
          some (addT
            (smulT cfg.beta
              (matmul (matmul (dcomp.rDataO.getD default) oldRProj)
                (trT newRProj)))
            (smulT (1 - cfg.beta) (matmul (trT grad) (trT newRProj))))
        else none
      r_proj :=
        if s ≠ "left" then
          some (if cfg.rng_only then ProjRep.seed newRKey
                else ProjRep.mat newRProj)
        else none }

/-- A trivial concrete chain link for witnesses. -/
def wLink : TransformF Nat Nat Nat := ⟨fun _ => 0, fun u s _ => (u, s)⟩

/-- A concrete flora chain with no trailing transforms, for witnesses. -/
def wFloraChain : FloraChain Nat Nat Nat :=
  { t0_init := fun _ => 0
    t0_upd := fun u s _ => (u, s)
    t1_init := fun _ => 0
    t1_upd := fun u s _ _ => (u, s)
    rest := [wLink] }

/-- A concrete momentum-free adafactor chain, for witnesses. -/
def wAdaChain : AdaChain Nat Nat Nat :=
  { momentum := none
    main_init := fun _ => 0
    main_upd := fun u s _ _ _ => (u, s)
    rest := [wLink] }

theorem tensorExt (A B : Tensor) (hs : A.shape = B.shape)
    (he : ∀ i, A.entry i = B.entry i) : A = B := by
  cases A with
  | mk s e =>
    cases B with
    | mk s' e' =>
      simp only at hs he
      subst hs
      exact congrArg (Tensor.mk s) (funext he)

theorem keysFor_length (R : RngModel) (rng n : Nat) :
    (keysFor R rng n).length = n := by
  simp [keysFor]

theorem keysFor_getD (R : RngModel) (rng n i : Nat) (h : i < n) :
    (keysFor R rng n).getD i 0 = R.treeKey rng i := by
  rw [keysFor, List.getD_eq_getElem _ _ (by simpa using h)]
  simp

theorem mapLayers_length (f : Tensor → Decomposition → Nat → Decomposition)
    (gs : List Tensor) (ds : List Decomposition) (ks : List Nat) :
    (mapLayers f gs ds ks).length =
      min gs.length (min ds.length ks.length) := by
  induction gs generalizing ds ks with
  | nil => simp [mapLayers]
  | cons g gs ih =>
    cases ds with
    | nil => simp [mapLayers]
    | cons d ds =>
      cases ks with
      | nil => simp [mapLayers]
      | cons k ks =>
        simp [mapLayers, ih]
        omega

theorem mapLayers_getD (f : Tensor → Decomposition → Nat → Decomposition)
    (gs : List Tensor) (ds : List Decomposition) (ks : List Nat) (i : Nat)
    (hg : i < gs.length) (hd : i < ds.length) (hk : i < ks.length) :
    (mapLayers f gs ds ks).getD i default =
      f (gs.getD i default) (ds.getD i default) (ks.getD i 0) := by
  induction gs generalizing ds ks i with
  | nil => simp at hg
  | cons g gs ih =>
    cases ds with
    | nil => simp at hd
    | cons d ds =>
      cases ks with
      | nil => simp at hk
      | cons k ks =>
        cases i with
        | zero => simp [mapLayers]
        | succ i =>
          simp only [mapLayers, List.getD_cons_succ]
          exact ih ds ks i (by simpa using hg) (by simpa using hd)
            (by simpa using hk)

theorem zipWithGetD {α β γ : Type} (f : α → β → γ) (as : List α) (bs : List β)
    (da : α) (db : β) (dc : γ) (i : Nat) (ha : i < as.length)
    (hb : i < bs.length) :
    (List.zipWith f as bs).getD i dc = f (as.getD i da) (bs.getD i db) := by
  rw [List.getD_eq_getElem _ _ (by rw [List.length_zipWith]; omega),
    List.getD_eq_getElem _ _ ha, List.getD_eq_getElem _ _ hb]
  exact List.getElem_zipWith

theorem shouldFactorize_off (cfg : FloraCfg) (h : cfg.factored = false)
    (shape : List Nat) : shouldFactorize cfg shape = false := by
  simp [shouldFactorize, h]

theorem mapLayers_const_key (h : Tensor → Decomposition → Decomposition)
    (gs : List Tensor) (ds : List Decomposition) (ks : List Nat)
    (hk : gs.length ≤ ks.length) :
    mapLayers (fun g d _ => h g d) gs ds ks = List.zipWith h gs ds := by
  induction gs generalizing ds ks with
  | nil => simp [mapLayers]
  | cons g gs ih =>
    cases ds with
    | nil => cases ks <;> simp [mapLayers]
    | cons d ds =>
      cases ks with
      | nil => simp at hk
      | cons k ks => simp [mapLayers, ih _ _ (by simpa using hk)]

theorem zipWith_const_right {α β γ : Type} (m : α → γ) (ps : List α)
    (ks : List β) (h : ps.length ≤ ks.length) :
    List.zipWith (fun p _ => m p) ps ks = ps.map m := by
  induction ps generalizing ks with
  | nil => simp
  | cons p ps ih =>
    cases ks with
    | nil => simp at h
    | cons k ks => simp [ih _ (by simpa using h)]

/-- C4: `should_factorize` is true exactly when factorization is globally
enabled, the tensor has rank 2, the aspect ratio is at most 16, and the
small dimension reaches `min_dim_size_to_factor`; with the default
configuration a (128,128) tensor is factorized while (127,127) and
(2048,16) are not. -/
theorem C4_should_factorize_boundary :
    (∀ (cfg : FloraCfg) (shape : List Nat),
      shouldFactorize cfg shape = true ↔
        (cfg.factored = true ∧ ∃ a b, shape = [a, b] ∧
          Nat.max a b ≤ 16 * Nat.min a b ∧
          cfg.min_dim_size_to_factor ≤ Nat.min a b)) ∧
    shouldFactorize defaultCfg [128, 128] = true ∧
    shouldFactorize defaultCfg [127, 127] = false ∧
    shouldFactorize defaultCfg [2048, 16] = false := by
  refine ⟨fun cfg shape => ?_, by decide, by decide, by decide⟩
  rcases cfg with ⟨fac, beta, tau, kappa, ro, mdsf, side⟩
  cases fac
  · simp [shouldFactorize]
  · match shape with
    | [] => simp [shouldFactorize]
    | [a] => simp [shouldFactorize]
    | [a, b] =>
      show (if Nat.max a b > Nat.min a b * 16 then false
            else decide (Nat.min a b ≥ mdsf)) = true ↔ _
      by_cases hr : Nat.max a b > Nat.min a b * 16
      · rw [if_pos hr]
        simp only [Bool.false_eq_true, false_iff]
        rintro ⟨-, a', b', heq, hle, hm⟩
        injection heq with h1 h2
        injection h2 with h2 h3
        subst h1; subst h2
        omega
      · rw [if_neg hr]
        simp only [decide_eq_true_eq]
        constructor
        · intro hm
          exact ⟨by trivial, a, b, rfl, by omega, hm⟩
        · rintro ⟨-, a', b', heq, hle, hm⟩
          injection heq with h1 h2
          injection h2 with h2 h3
          subst h1; subst h2
          exact hm
    | a :: b :: c :: rest => simp [shouldFactorize]

/-- C9: the data loader with a length-10 dataset and batch size 3 yields
three full batches when `drop_last` is set; with `drop_last` off it yields
four batches of sizes 3, 3, 2, 2 (np.array_split balances the sections),
not 3, 3, 3, 1 as the spec states. -/
theorem C9_data_loader_sizes :
    dataLoaderBatches 10 3 true = [[0, 1, 2], [3, 4, 5], [6, 7, 8]] ∧
    (dataLoaderBatches 10 3 true).map List.length = [3, 3, 3] ∧
    (dataLoaderBatches 10 3 false).map List.length = [3, 3, 2, 2] := by
  decide

/-- C3: the combined flora update emits
`beta * query(grads, pre_state) + (1 - beta) * grads` computed from the
state as it was before the call, and the returned state is the advanced
`update_state` result with the counter incremented by one. -/
theorem C3_combined_update_pre_state (cfg : FloraCfg) (R : RngModel)
    (grads : List Tensor) (st : FloraState) :
    (updateFn cfg R grads st).1 =
      List.zipWith
        (fun m g => addT (smulT cfg.beta m) (smulT (1 - cfg.beta) g))
        (queryFn cfg R grads st) grads ∧
    (updateFn cfg R grads st).2 = updateState cfg R grads st ∧
    (updateFn cfg R grads st).2.count = st.count + 1 := by
  have hfun :
      (fun m g => addT (mulSR m cfg.beta) (mulSR g (1 - cfg.beta))) =
        fun m g => addT (smulT cfg.beta m) (smulT (1 - cfg.beta) g) := by
    funext m g
    refine tensorExt _ _ rfl fun i => ?_
    simp only [addT, mulSR, smulT]
    ring
  refine ⟨?_, rfl, rfl⟩
  simp only [updateFn, hfun]

/-- C8: a chain built from `T` transform specs yields an init state tuple
of length exactly `T`, and updating with a state tuple of any other length
returns the arity ValueError instead of truncating or padding, for both
the flora and the adafactor assemblies. -/
theorem C8_chain_state_arity {P U S P2 U2 S2 : Type} (c : FloraChain P U S)
    (a : AdaChain P2 U2 S2) (params : P) (params2 : P2) (grads : U)
    (grads2 : U2) (state : List S) (state2 : List S2) (q : Bool)
    (hc : state.length ≠ c.size) (ha : state2.length ≠ a.size) :
    (c.initChain params).length = c.size ∧
    c.updateChain grads state params = Except.error chainErrMsg ∧
    (a.initChain params2).length = a.size ∧
    a.updateChain grads2 state2 params2 q = Except.error chainErrMsg := by
  refine ⟨?_, ?_, ?_, ?_⟩
  · simp [FloraChain.initChain, FloraChain.size]
    omega
  · simp [FloraChain.updateChain, Ne.symm hc]
  · cases hm : a.momentum <;>
      simp [AdaChain.initChain, AdaChain.size, hm] <;> omega
  · simp [AdaChain.updateChain, Ne.symm ha]

/-- C5: with factorization globally disabled (`tau = None`, so
`factored = False`) every decomposition is naive: init allocates zero
buffers, every update step (whatever `count mod kappa` is) performs the
plain exponential-moving-average step `data' = beta*data + (1-beta)*grad`,
and query returns the stored buffer unchanged. -/
theorem C5_unfactored_plain_ema (cfg : FloraCfg) (R : RngModel) (seed : Nat)
    (params grads : List Tensor) (st : FloraState)
    (hf : cfg.factored = false) :
    (initState cfg R seed params).decomposition =
      params.map (fun p => Decomposition.naive (zerosLike p)) ∧
    (updateState cfg R grads st).decomposition =
      List.zipWith
        (fun g d => Decomposition.naive (emaStep cfg.beta d.dataD g))
        grads st.decomposition ∧
    queryFn cfg R grads st =
      List.zipWith (fun g d => d.dataD) grads st.decomposition := by
  refine ⟨?_, ?_, ?_⟩
  · have h1 : (fun p k => initLayer cfg R p k) =
        fun p (_ : Nat) => Decomposition.naive (zerosLike p) := by
      funext p k
      simp [initLayer, shouldFactorize_off cfg hf]
    simp only [initState, h1]
    exact zipWith_const_right _ _ _ (by simp [keysFor_length])
  · have hfull : (fullLayerFn cfg R) =
        fun g d (_ : Nat) =>
          Decomposition.naive (emaStep cfg.beta d.dataD g) := by
      funext g d k
      simp [fullLayerFn, shouldFactorize_off cfg hf, naiveFn, emaStep]
    have hpart : (partLayerFn cfg R) =
        fun g d (_ : Nat) =>
          Decomposition.naive (emaStep cfg.beta d.dataD g) := by
      funext g d k
      simp [partLayerFn, shouldFactorize_off cfg hf, naiveFn, emaStep]
    simp only [updateState]
    by_cases hk : st.count % cfg.kappa = 0
    · rw [if_pos hk, hfull]
      exact mapLayers_const_key _ _ _ _ (by simp [keysFor_length])
    · rw [if_neg hk, hpart]
      exact mapLayers_const_key _ _ _ _ (by simp [keysFor_length])
  · have hq : (fun g d => queryLayer cfg R g d) =
        fun (g : Tensor) (d : Decomposition) => d.dataD := by
      funext g d
      simp [queryLayer, shouldFactorize_off cfg hf]
    simp only [queryFn, hq]

/-- Closed witness for C5 at a concrete disabled-factorization
configuration, a one-tensor parameter tree and one gradient step. -/
theorem C5_unfactored_plain_ema_witness :
    wCfgOff.factored = false ∧
    ((initState wCfgOff wRng 0 [wTensor]).decomposition =
        [wTensor].map (fun p => Decomposition.naive (zerosLike p)) ∧
      (updateState wCfgOff wRng [wTensor]
          (initState wCfgOff wRng 0 [wTensor])).decomposition =
        List.zipWith
          (fun g d => Decomposition.naive (emaStep wCfgOff.beta d.dataD g))
          [wTensor] (initState wCfgOff wRng 0 [wTensor]).decomposition ∧
      queryFn wCfgOff wRng [wTensor] (initState wCfgOff wRng 0 [wTensor]) =
        List.zipWith (fun g d => d.dataD) [wTensor]
          (initState wCfgOff wRng 0 [wTensor]).decomposition) :=
  ⟨rfl, C5_unfactored_plain_ema wCfgOff wRng 0 [wTensor] [wTensor]
    (initState wCfgOff wRng 0 [wTensor]) rfl⟩

theorem fullLayerFn_eq_claimed (cfg : FloraCfg) (R : RngModel) (g : Tensor)
    (d : Decomposition) (k : Nat)
    (hsf : shouldFactorize cfg g.shape = true) :
    fullLayerFn cfg R g d k = claimedRefresh cfg R g d k := by
  unfold fullLayerFn claimedRefresh
  rw [hsf]
  simp

/-- C1: on a refresh step (`count mod kappa == 0`, the very first update
at count 0 included) a factorized tensor's decomposition is replaced by
fresh random projections together with compressed data equal to the
exponential-decay blend of the re-projected history with the newly
projected gradient, exactly as `claimedRefresh` states it. -/
theorem C1_refresh_step_formula (cfg : FloraCfg) (R : RngModel)
    (grads : List Tensor) (st : FloraState) (i : Nat)
    (hkap : st.count % cfg.kappa = 0)
    (hg : i < grads.length) (hd : i < st.decomposition.length)
    (hfac : (st.decomposition.getD i default).isFactored = true)
    (hsf : shouldFactorize cfg (grads.getD i default).shape = true) :
    (updateState cfg R grads st).decomposition.getD i default =
      claimedRefresh cfg R (grads.getD i default)
        (st.decomposition.getD i default) (R.treeKey st.rng i) := by
  simp only [updateState]
  rw [if_pos hkap]
  rw [mapLayers_getD _ _ _ _ _ hg hd (by rw [keysFor_length]; exact hg)]
  rw [keysFor_getD _ _ _ _ hg]
  exact fullLayerFn_eq_claimed cfg R _ _ _ hsf

/-- Closed witness for C1: the first update (count 0) of a factorized
1 x 1 parameter under the concrete witness configuration. -/
theorem C1_refresh_step_formula_witness :
    (initState wCfg wRng 0 [wTensor]).count % wCfg.kappa = 0 ∧
    0 < ([wTensor] : List Tensor).length ∧
    0 < (initState wCfg wRng 0 [wTensor]).decomposition.length ∧
    ((initState wCfg wRng 0 [wTensor]).decomposition.getD 0
      default).isFactored = true ∧
    shouldFactorize wCfg (([wTensor] : List Tensor).getD 0 default).shape
      = true ∧
    (updateState wCfg wRng [wTensor]
        (initState wCfg wRng 0 [wTensor])).decomposition.getD 0 default =
      claimedRefresh wCfg wRng (([wTensor] : List Tensor).getD 0 default)
        ((initState wCfg wRng 0 [wTensor]).decomposition.getD 0 default)
        (wRng.treeKey (initState wCfg wRng 0 [wTensor]).rng 0) :=
  ⟨by decide, by decide, by decide, by decide, by decide,
    C1_refresh_step_formula wCfg wRng [wTensor]
      (initState wCfg wRng 0 [wTensor]) 0 (by decide) (by decide)
      (by decide) (by decide) (by decide)⟩

/-- C2: on a non-refresh step (`count mod kappa != 0`) the update keeps
every stored projection field of a factorized tensor's decomposition
unchanged (materialized tensor or stored key alike) and the decomposition
stays factored, so only the compressed data buffers move between refresh
steps. -/
theorem C2_partial_keeps_projections (cfg : FloraCfg) (R : RngModel)
    (grads : List Tensor) (st : FloraState) (i : Nat)
    (hkap : st.count % cfg.kappa ≠ 0)
    (hg : i < grads.length) (hd : i < st.decomposition.length)
    (hfac : (st.decomposition.getD i default).isFactored = true)
    (hsf : shouldFactorize cfg (grads.getD i default).shape = true)
    (hlc : resolveSide cfg.side ((grads.getD i default).shape.headD 0)
        ((grads.getD i default).shape.getD 1 0) = "right" →
        (st.decomposition.getD i default).lProjO = none)
    (hrc : resolveSide cfg.side ((grads.getD i default).shape.headD 0)
        ((grads.getD i default).shape.getD 1 0) = "left" →
        (st.decomposition.getD i default).rProjO = none) :
    ((updateState cfg R grads st).decomposition.getD i default).lProjO =
      (st.decomposition.getD i default).lProjO ∧
    ((updateState cfg R grads st).decomposition.getD i default).rProjO =
      (st.decomposition.getD i default).rProjO ∧
    ((updateState cfg R grads st).decomposition.getD i
      default).isFactored = true := by
  simp only [updateState]
  rw [if_neg hkap]
  rw [mapLayers_getD _ _ _ _ _ hg hd (by rw [keysFor_length]; exact hg)]
  unfold partLayerFn
  rw [hsf]
  simp only [Bool.true_eq_false, if_false]
  refine ⟨?_, ?_, rfl⟩
  · by_cases hs : resolveSide cfg.side ((grads.getD i default).shape.headD 0)
        ((grads.getD i default).shape.getD 1 0) = "right"
    · simp only [Decomposition.lProjO, hs, ne_eq, not_true_eq_false,
        if_false]
      exact (hlc hs).symm
    · simp only [Decomposition.lProjO, hs, ne_eq, not_false_eq_true,
        if_true]
  · by_cases hs : resolveSide cfg.side ((grads.getD i default).shape.headD 0)
        ((grads.getD i default).shape.getD 1 0) = "left"
    · simp only [Decomposition.rProjO, hs, ne_eq, not_true_eq_false,
        if_false]
      exact (hrc hs).symm
    · simp only [Decomposition.rProjO, hs, ne_eq, not_false_eq_true,
        if_true]

/-- Closed witness for C2: the second update (count 1, off the refresh
cadence for kappa 2) of the factorized 1 x 1 witness parameter. -/
theorem C2_partial_keeps_projections_witness :
    (updateState wCfg wRng [wTensor]
        (initState wCfg wRng 0 [wTensor])).count % wCfg.kappa ≠ 0 ∧
    (((updateState wCfg wRng [wTensor]
        (updateState wCfg wRng [wTensor]
          (initState wCfg wRng 0 [wTensor]))).decomposition.getD 0
            default).lProjO =
      ((updateState wCfg wRng [wTensor]
        (initState wCfg wRng 0 [wTensor])).decomposition.getD 0
          default).lProjO ∧
    ((updateState wCfg wRng [wTensor]
        (updateState wCfg wRng [wTensor]
          (initState wCfg wRng 0 [wTensor]))).decomposition.getD 0
            default).rProjO =
      ((updateState wCfg wRng [wTensor]
        (initState wCfg wRng 0 [wTensor])).decomposition.getD 0
          default).rProjO ∧
    ((updateState wCfg wRng [wTensor]
        (updateState wCfg wRng [wTensor]
          (initState wCfg wRng 0 [wTensor]))).decomposition.getD 0
            default).isFactored = true) :=
  ⟨by decide,
    C2_partial_keeps_projections wCfg wRng [wTensor]
      (updateState wCfg wRng [wTensor] (initState wCfg wRng 0 [wTensor])) 0
      (by decide) (by decide) (by decide) (by decide) (by decide)
      (fun h => absurd h (by decide)) (fun _ => by rfl)⟩

/-- Counterexample to C10: with the invalid side value "both" the
estimator does not fail — init returns an ordinary factored decomposition
with all four fields populated, the first update proceeds to another
fully populated factored decomposition, and query reconstructs a tensor of
the parameter's shape through the averaged both-sides path; no
configuration error exists anywhere on the path. -/
theorem C10_counterexample_invalid_side_tolerated :
    bothPopulated
      ((initState wCfgBoth wRng 0 [wTensor]).decomposition.getD 0 default)
      = true ∧
    bothPopulated
      ((updateState wCfgBoth wRng [wTensor]
        (initState wCfgBoth wRng 0 [wTensor])).decomposition.getD 0 default)
      = true ∧
    (queryLayer wCfgBoth wRng wTensor
      ((initState wCfgBoth wRng 0 [wTensor]).decomposition.getD 0
        default)).shape = wTensor.shape := by
  decide

/-- C10 amended: an invalid `side` value (any string other than "left",
"right", "auto") is silently tolerated rather than rejected: for every
tensor the policy factorizes, init populates both sides (the
auto-both-sides configuration), the refresh path keeps both sides
populated, and the partial path still yields a factored decomposition —
no error is raised during init or update. -/
theorem C10_amended_invalid_side_tolerated (cfg : FloraCfg) (R : RngModel)
    (p : Tensor) (key : Nat)
    (hl : cfg.side ≠ "left") (hr : cfg.side ≠ "right")
    (ha : cfg.side ≠ "auto")
    (hsf : shouldFactorize cfg p.shape = true) :
    bothPopulated (initLayer cfg R p key) = true ∧
    ∀ (g : Tensor) (d : Decomposition) (k : Nat),
      shouldFactorize cfg g.shape = true →
      bothPopulated (fullLayerFn cfg R g d k) = true ∧
      (partLayerFn cfg R g d k).isFactored = true := by
  have hs : ∀ ind outd, resolveSide cfg.side ind outd = cfg.side := by
    intro ind outd
    simp [resolveSide, ha]
  refine ⟨?_, fun g d k hsg => ⟨?_, ?_⟩⟩
  · unfold initLayer
    rw [if_pos hsf]
    simp [bothPopulated, hs, hl, hr]
  · unfold fullLayerFn
    rw [hsg]
    simp [bothPopulated, hs, hl, hr]
  · unfold partLayerFn
    rw [hsg]
    simp [Decomposition.isFactored]

/-- Closed witness for the amended C10 at the concrete side value "both"
and the factorized 1 x 1 witness parameter. -/
theorem C10_amended_invalid_side_tolerated_witness :
    wCfgBoth.side ≠ "left" ∧ wCfgBoth.side ≠ "right" ∧
    wCfgBoth.side ≠ "auto" ∧
    shouldFactorize wCfgBoth wTensor.shape = true ∧
    (bothPopulated (initLayer wCfgBoth wRng wTensor 0) = true ∧
      ∀ (g : Tensor) (d : Decomposition) (k : Nat),
        shouldFactorize wCfgBoth g.shape = true →
        bothPopulated (fullLayerFn wCfgBoth wRng g d k) = true ∧
        (partLayerFn wCfgBoth wRng g d k).isFactored = true) :=
  ⟨by decide, by decide, by decide, by decide,
    C10_amended_invalid_side_tolerated wCfgBoth wRng wTensor 0 (by decide)
      (by decide) (by decide) (by decide)⟩

theorem popSig_initLayer (cfg : FloraCfg) (R : RngModel) (p : Tensor)
    (key : Nat) :
    popSig (initLayer cfg R p key) = sigOfShape cfg p.shape := by
  unfold initLayer sigOfShape
  by_cases h : shouldFactorize cfg p.shape = true
  · rw [if_pos h, if_pos h]
    by_cases hr : resolveSide cfg.side (p.shape.head?.getD 0)
        (p.shape[1]?.getD 0) = "right"
    · have hl : ¬resolveSide cfg.side (p.shape.head?.getD 0)
          (p.shape[1]?.getD 0) = "left" := by rw [hr]; decide
      simp [popSig, hr, hl]
    · by_cases hl : resolveSide cfg.side (p.shape.head?.getD 0)
          (p.shape[1]?.getD 0) = "left"
      · simp [popSig, hr, hl]
      · simp [popSig, hr, hl]
  · rw [if_neg h, if_neg h]
    rfl

theorem popSig_fullLayerFn (cfg : FloraCfg) (R : RngModel) (g : Tensor)
    (d : Decomposition) (k : Nat) :
    popSig (fullLayerFn cfg R g d k) = sigOfShape cfg g.shape := by
  cases h : shouldFactorize cfg g.shape with
  | false => simp [fullLayerFn, sigOfShape, h, naiveFn, popSig]
  | true =>
    unfold fullLayerFn sigOfShape
    rw [if_neg (by simp [h]), if_pos h]
    by_cases hr : resolveSide cfg.side (g.shape.head?.getD 0)
        (g.shape[1]?.getD 0) = "right"
    · have hl : ¬resolveSide cfg.side (g.shape.head?.getD 0)
          (g.shape[1]?.getD 0) = "left" := by rw [hr]; decide
      simp [popSig, hr, hl]
    · by_cases hl : resolveSide cfg.side (g.shape.head?.getD 0)
          (g.shape[1]?.getD 0) = "left"
      · simp [popSig, hr, hl]
      · simp [popSig, hr, hl]

theorem popSig_partLayerFn (cfg : FloraCfg) (R : RngModel) (g : Tensor)
    (d : Decomposition) (k : Nat)
    (hsig : popSig d = sigOfShape cfg g.shape) :
    popSig (partLayerFn cfg R g d k) = sigOfShape cfg g.shape := by
  cases h : shouldFactorize cfg g.shape with
  | false => simp [partLayerFn, sigOfShape, h, naiveFn, popSig]
  | true =>
    cases d with
    | naive t =>
      unfold popSig sigOfShape at hsig
      rw [if_pos h] at hsig
      exact absurd (congrArg Prod.fst hsig) (by simp)
    | factored t =>
      unfold popSig sigOfShape at hsig
      rw [if_pos h] at hsig
      simp at hsig
      obtain ⟨hld, hlp, hrd, hrp⟩ := hsig
      unfold partLayerFn sigOfShape
      rw [if_neg (by simp [h]), if_pos h]
      by_cases hr : resolveSide cfg.side (g.shape.head?.getD 0)
          (g.shape[1]?.getD 0) = "right"
      · have hl : ¬resolveSide cfg.side (g.shape.head?.getD 0)
            (g.shape[1]?.getD 0) = "left" := by rw [hr]; decide
        simp [popSig, Decomposition.lProjO, Decomposition.rProjO, hr, hl,
          hld, hlp, hrd, hrp]
      · by_cases hl : resolveSide cfg.side (g.shape.head?.getD 0)
            (g.shape[1]?.getD 0) = "left"
        · simp [popSig, Decomposition.lProjO, Decomposition.rProjO, hr, hl,
            hld, hlp, hrd, hrp]
        · simp [popSig, Decomposition.lProjO, Decomposition.rProjO, hr, hl,
            hld, hlp, hrd, hrp]

theorem sigInv_initState (cfg : FloraCfg) (R : RngModel) (seed : Nat)
    (params : List Tensor) :
    SigInv cfg params (initState cfg R seed params) := by
  constructor
  · simp [initState, keysFor_length]
  · intro j hj
    simp only [initState]
    rw [zipWithGetD _ _ _ default 0 default j hj
      (by rw [keysFor_length]; exact hj)]
    exact popSig_initLayer cfg R _ _

theorem sigInv_updateState (cfg : FloraCfg) (R : RngModel)
    (params grads : List Tensor) (st : FloraState)
    (hinv : SigInv cfg params st)
    (hglen : grads.length = params.length)
    (hgshape : ∀ j, j < params.length →
      (grads.getD j default).shape = (params.getD j default).shape) :
    SigInv cfg params (updateState cfg R grads st) := by
  obtain ⟨hlen, hsig⟩ := hinv
  constructor
  · simp only [updateState]
    by_cases hk : st.count % cfg.kappa = 0
    · rw [if_pos hk, mapLayers_length]
      simp [keysFor_length, hlen, hglen]
    · rw [if_neg hk, mapLayers_length]
      simp [keysFor_length, hlen, hglen]
  · intro j hj
    have hjg : j < grads.length := by omega
    have hjd : j < st.decomposition.length := by omega
    simp only [updateState]
    by_cases hk : st.count % cfg.kappa = 0
    · rw [if_pos hk,
        mapLayers_getD _ _ _ _ _ hjg hjd (by rw [keysFor_length]; omega)]
      rw [← hgshape j hj]
      exact popSig_fullLayerFn cfg R _ _ _
    · rw [if_neg hk,
        mapLayers_getD _ _ _ _ _ hjg hjd (by rw [keysFor_length]; omega)]
      rw [← hgshape j hj]
      refine popSig_partLayerFn cfg R _ _ _ ?_
      rw [hgshape j hj]
      exact hsig j hj

theorem sigInv_evolve (cfg : FloraCfg) (R : RngModel)
    (params : List Tensor) (seq : List (List Tensor)) (st : FloraState)
    (hinv : SigInv cfg params st)
    (hlen : ∀ gs ∈ seq, gs.length = params.length)
    (hshape : ∀ gs ∈ seq, ∀ j, j < params.length →
      (gs.getD j default).shape = (params.getD j default).shape) :
    SigInv cfg params (evolve cfg R seq st) := by
  induction seq generalizing st with
  | nil => exact hinv
  | cons gs rest ih =>
    exact ih (updateState cfg R gs st)
      (sigInv_updateState cfg R params gs st hinv
        (hlen gs (List.mem_cons_self gs rest))
        (hshape gs (List.mem_cons_self gs rest)))
      (fun g hg => hlen g (List.mem_cons_of_mem gs hg))
      (fun g hg => hshape g (List.mem_cons_of_mem gs hg))

/-- C6: from any init state, through any sequence of updates whose
gradient trees match the parameter shapes, every parameter's decomposition
keeps the variant and the populated-fields pattern chosen at
initialization: naive stays naive, and a factored decomposition keeps
exactly the same populated sides. -/
theorem C6_variant_chosen_once (cfg : FloraCfg) (R : RngModel) (seed : Nat)
    (params : List Tensor) (seq : List (List Tensor)) (i : Nat)
    (hlen : ∀ gs ∈ seq, gs.length = params.length)
    (hshape : ∀ gs ∈ seq, ∀ j, j < params.length →
      (gs.getD j default).shape = (params.getD j default).shape)
    (hi : i < params.length) :
    popSig ((evolve cfg R seq
        (initState cfg R seed params)).decomposition.getD i default) =
      popSig ((initState cfg R seed params).decomposition.getD i default)
      := by
  have h1 := sigInv_evolve cfg R params seq (initState cfg R seed params)
    (sigInv_initState cfg R seed params) hlen hshape
  have h2 := sigInv_initState cfg R seed params
  rw [h1.2 i hi, h2.2 i hi]

/-- Closed witness for C6: one update step on the one-tensor witness
parameter tree with a same-shaped gradient. -/
theorem C6_variant_chosen_once_witness :
    (∀ gs ∈ [[wTensor]], gs.length = ([wTensor] : List Tensor).length) ∧
    (∀ gs ∈ [[wTensor]], ∀ j, j < ([wTensor] : List Tensor).length →
      (gs.getD j default).shape =
        (([wTensor] : List Tensor).getD j default).shape) ∧
    0 < ([wTensor] : List Tensor).length ∧
    popSig ((evolve wCfg wRng [[wTensor]]
        (initState wCfg wRng 0 [wTensor])).decomposition.getD 0 default) =
      popSig ((initState wCfg wRng 0 [wTensor]).decomposition.getD 0
        default) :=
  ⟨by decide, by decide, by decide,
    C6_variant_chosen_once wCfg wRng 0 [wTensor] [[wTensor]] 0 (by decide)
      (by decide) (by decide)⟩

theorem sf_false_of_not_true (b : Bool) (h : ¬b = true) : b = false := by
  cases b
  · rfl
  · exact absurd rfl h

theorem sf_shape_pair (cfg : FloraCfg) (ps : List Nat)
    (h : shouldFactorize cfg ps = true) :
    ps = [ps.head?.getD 0, ps[1]?.getD 0] := by
  cases hcf : cfg.factored
  · rw [shouldFactorize_off cfg hcf] at h
    exact absurd h (by simp)
  · match ps with
    | [] => simp [shouldFactorize, hcf] at h
    | [a] => simp [shouldFactorize, hcf] at h
    | [a, b] => rfl
    | a :: b :: c :: r =>
      unfold shouldFactorize at h
      rw [hcf] at h
      rw [if_neg (by simp), if_pos (by simp)] at h
      exact absurd h (by simp)

theorem shapeInv_initLayer (cfg : FloraCfg) (R : RngModel) (p : Tensor)
    (key : Nat) : ShapeInvLayer cfg p.shape (initLayer cfg R p key) := by
  unfold ShapeInvLayer initLayer
  by_cases h : shouldFactorize cfg p.shape = true
  · rw [if_pos h, if_pos h]
    refine ⟨_, rfl, fun hnr => ⟨?_, ?_⟩, fun hnl => ⟨?_, ?_⟩⟩
    · simp [hnr, zeros]
    · cases hro : cfg.rng_only <;> simp [hnr, hro, projShapeOK, genT]
    · simp [hnl, zeros]
    · cases hro : cfg.rng_only <;> simp [hnl, hro, projShapeOK, genT]
  · rw [if_neg h, if_neg h]
    exact ⟨_, rfl, rfl⟩

theorem queryLayer_shape (cfg : FloraCfg) (R : RngModel) (g : Tensor)
    (d : Decomposition) (hinv : ShapeInvLayer cfg g.shape d) :
    (queryLayer cfg R g d).shape = g.shape := by
  unfold ShapeInvLayer at hinv
  by_cases h : shouldFactorize cfg g.shape = true
  · rw [if_pos h] at hinv
    obtain ⟨t, rfl, hL, hR⟩ := hinv
    have hpair := sf_shape_pair cfg g.shape h
    unfold queryLayer
    rw [if_neg (by simp [h])]
    by_cases hsl : resolveSide cfg.side (g.shape.head?.getD 0)
        (g.shape[1]?.getD 0) = "left"
    · obtain ⟨⟨x, hx, hxs⟩, pr, hp, hps⟩ := hL (by rw [hsl]; decide)
      cases pr with
      | mat m =>
        obtain ⟨hro, hms⟩ := hps
        conv_rhs => rw [hpair]
        simp [hsl, hro, hx, hxs, hms, hp, Decomposition.lProjO,
          Decomposition.lDataO, projMatD, trT, matmul]
      | seed sk =>
        have hro : cfg.rng_only = true := hps
        conv_rhs => rw [hpair]
        simp [hsl, hro, hx, hxs, hp, Decomposition.lProjO,
          Decomposition.lDataO, projSeedD, trT, matmul, genT]
    · by_cases hsr : resolveSide cfg.side (g.shape.head?.getD 0)
          (g.shape[1]?.getD 0) = "right"
      · obtain ⟨⟨x, hx, hxs⟩, pr, hp, hps⟩ := hR (by rw [hsr]; decide)
        cases pr with
        | mat m =>
          obtain ⟨hro, hms⟩ := hps
          conv_rhs => rw [hpair]
          simp [hsl, hsr, hro, hx, hxs, hms, hp, Decomposition.rProjO,
            Decomposition.rDataO, projMatD, trT, matmul]
        | seed sk =>
          have hro : cfg.rng_only = true := hps
          conv_rhs => rw [hpair]
          simp [hsl, hsr, hro, hx, hxs, hp, Decomposition.rProjO,
            Decomposition.rDataO, projSeedD, trT, matmul, genT]
      · obtain ⟨⟨x, hx, hxs⟩, pr, hp, hps⟩ := hR hsl
        cases pr with
        | mat m =>
          obtain ⟨hro, hms⟩ := hps
          conv_rhs => rw [hpair]
          simp [hsl, hsr, hro, hx, hxs, hms, hp, Decomposition.rProjO,
            Decomposition.rDataO, projMatD, trT, matmul, addT, divT]
        | seed sk =>
          have hro : cfg.rng_only = true := hps
          conv_rhs => rw [hpair]
          simp [hsl, hsr, hro, hx, hxs, hp, Decomposition.rProjO,
            Decomposition.rDataO, projSeedD, trT, matmul, genT, addT, divT]
  · rw [if_neg h] at hinv
    obtain ⟨t, rfl, hts⟩ := hinv
    unfold queryLayer
    rw [if_pos (sf_false_of_not_true _ h)]
    exact hts

theorem shapeInv_fullLayerFn (cfg : FloraCfg) (R : RngModel) (g : Tensor)
    (d : Decomposition) (k : Nat) (hinv : ShapeInvLayer cfg g.shape d) :
    ShapeInvLayer cfg g.shape (fullLayerFn cfg R g d k) := by
  unfold ShapeInvLayer at hinv ⊢
  by_cases h : shouldFactorize cfg g.shape = true
  · rw [if_pos h] at hinv ⊢
    obtain ⟨t, rfl, hL, hR⟩ := hinv
    unfold fullLayerFn
    rw [if_neg (by simp [h])]
    refine ⟨_, rfl, fun hnr => ⟨?_, ?_⟩, fun hnl => ⟨?_, ?_⟩⟩
    · obtain ⟨⟨x, hx, hxs⟩, pr, hp, hps⟩ := hL hnr
      simp [hnr, hx, hxs, Decomposition.lDataO, Decomposition.lProjO,
        addT, smulT, matmul, trT, genT]
    · cases hro : cfg.rng_only <;>
        simp [hnr, hro, projShapeOK, genT]
    · obtain ⟨⟨x, hx, hxs⟩, pr, hp, hps⟩ := hR hnl
      simp [hnl, hx, hxs, Decomposition.rDataO, Decomposition.rProjO,
        addT, smulT, matmul, trT, genT]
    · cases hro : cfg.rng_only <;>
        simp [hnl, hro, projShapeOK, genT]
  · rw [if_neg h] at hinv ⊢
    obtain ⟨t, rfl, hts⟩ := hinv
    unfold fullLayerFn
    rw [if_pos (sf_false_of_not_true _ h)]
    exact ⟨_, rfl, by
      simp [naiveFn, addT, smulT, Decomposition.dataD, hts]⟩

theorem shapeInv_partLayerFn (cfg : FloraCfg) (R : RngModel) (g : Tensor)
    (d : Decomposition) (k : Nat) (hinv : ShapeInvLayer cfg g.shape d) :
    ShapeInvLayer cfg g.shape (partLayerFn cfg R g d k) := by
  unfold ShapeInvLayer at hinv ⊢
  by_cases h : shouldFactorize cfg g.shape = true
  · rw [if_pos h] at hinv ⊢
    obtain ⟨t, rfl, hL, hR⟩ := hinv
    unfold partLayerFn
    rw [if_neg (by simp [h])]
    refine ⟨_, rfl, fun hnr => ⟨?_, ?_⟩, fun hnl => ⟨?_, ?_⟩⟩
    · obtain ⟨⟨x, hx, hxs⟩, pr, hp, hps⟩ := hL hnr
      simp [hnr, hx, hxs, Decomposition.lDataO, addT, smulT]
    · obtain ⟨⟨x, hx, hxs⟩, pr, hp, hps⟩ := hL hnr
      refine ⟨pr, ?_, hps⟩
      simp [hnr, Decomposition.lProjO, hp]
    · obtain ⟨⟨x, hx, hxs⟩, pr, hp, hps⟩ := hR hnl
      simp [hnl, hx, hxs, Decomposition.rDataO, addT, smulT]
    · obtain ⟨⟨x, hx, hxs⟩, pr, hp, hps⟩ := hR hnl
      refine ⟨pr, ?_, hps⟩
      simp [hnl, Decomposition.rProjO, hp]
  · rw [if_neg h] at hinv ⊢
    obtain ⟨t, rfl, hts⟩ := hinv
    unfold partLayerFn
    rw [if_pos (sf_false_of_not_true _ h)]
    exact ⟨_, rfl, by
      simp [naiveFn, addT, smulT, Decomposition.dataD, hts]⟩

theorem shapeInv_initState (cfg : FloraCfg) (R : RngModel) (seed : Nat)
    (params : List Tensor) :
    ShapeInvState cfg params (initState cfg R seed params) := by
  constructor
  · simp [initState, keysFor_length]
  · intro j hj
    simp only [initState]
    rw [zipWithGetD _ _ _ default 0 default j hj
      (by rw [keysFor_length]; exact hj)]
    exact shapeInv_initLayer cfg R _ _

theorem shapeInv_updateState (cfg : FloraCfg) (R : RngModel)
    (params grads : List Tensor) (st : FloraState)
    (hinv : ShapeInvState cfg params st)
    (hglen : grads.length = params.length)
    (hgshape : ∀ j, j < params.length →
      (grads.getD j default).shape = (params.getD j default).shape) :
    ShapeInvState cfg params (updateState cfg R grads st) := by
  obtain ⟨hlen, hl⟩ := hinv
  constructor
  · simp only [updateState]
    by_cases hk : st.count % cfg.kappa = 0
    · rw [if_pos hk, mapLayers_length]
      simp [keysFor_length, hlen, hglen]
    · rw [if_neg hk, mapLayers_length]
      simp [keysFor_length, hlen, hglen]
  · intro j hj
    have hjg : j < grads.length := by omega
    have hjd : j < st.decomposition.length := by omega
    have hlay : ShapeInvLayer cfg (grads.getD j default).shape
        (st.decomposition.getD j default) := by
      rw [hgshape j hj]
      exact hl j hj
    simp only [updateState]
    by_cases hk : st.count % cfg.kappa = 0
    · rw [if_pos hk,
        mapLayers_getD _ _ _ _ _ hjg hjd (by rw [keysFor_length]; omega)]
      rw [← hgshape j hj]
      exact shapeInv_fullLayerFn cfg R _ _ _ hlay
    · rw [if_neg hk,
        mapLayers_getD _ _ _ _ _ hjg hjd (by rw [keysFor_length]; omega)]
      rw [← hgshape j hj]
      exact shapeInv_partLayerFn cfg R _ _ _ hlay

theorem shapeInv_evolve (cfg : FloraCfg) (R : RngModel)
    (params : List Tensor) (seq : List (List Tensor)) (st : FloraState)
    (hinv : ShapeInvState cfg params st)
    (hlen : ∀ gs ∈ seq, gs.length = params.length)
    (hshape : ∀ gs ∈ seq, ∀ j, j < params.length →
      (gs.getD j default).shape = (params.getD j default).shape) :
    ShapeInvState cfg params (evolve cfg R seq st) := by
  induction seq generalizing st with
  | nil => exact hinv
  | cons gs rest ih =>
    exact ih (updateState cfg R gs st)
      (shapeInv_updateState cfg R params gs st hinv
        (hlen gs (List.mem_cons_self gs rest))
        (hshape gs (List.mem_cons_self gs rest)))
      (fun g hg => hlen g (List.mem_cons_of_mem gs hg))
      (fun g hg => hshape g (List.mem_cons_of_mem gs hg))

/-- C7: on every reachable state (init followed by any number of
shape-respecting updates) and for every gradient tree matching the
parameter shapes, `query` returns, for each parameter of shape S, a tensor
of shape S — through the naive, left-factored, right-factored and
both-sides reconstruction paths alike. -/
theorem C7_query_preserves_shape (cfg : FloraCfg) (R : RngModel)
    (seed : Nat) (params : List Tensor) (seq : List (List Tensor))
    (grads : List Tensor) (i : Nat)
    (hslen : ∀ gs ∈ seq, gs.length = params.length)
    (hsshape : ∀ gs ∈ seq, ∀ j, j < params.length →
      (gs.getD j default).shape = (params.getD j default).shape)
    (hglen : grads.length = params.length)
    (hgshape : ∀ j, j < params.length →
      (grads.getD j default).shape = (params.getD j default).shape)
    (hi : i < params.length) :
    ((queryFn cfg R grads
        (evolve cfg R seq (initState cfg R seed params))).getD i
          default).shape = (params.getD i default).shape := by
  have hinv := shapeInv_evolve cfg R params seq
    (initState cfg R seed params)
    (shapeInv_initState cfg R seed params) hslen hsshape
  obtain ⟨hlen, hl⟩ := hinv
  simp only [queryFn]
  rw [zipWithGetD _ _ _ default default default i (by omega) (by omega)]
  rw [← hgshape i hi]
  refine queryLayer_shape cfg R _ _ ?_
  rw [hgshape i hi]
  exact hl i hi

/-- Closed witness for C7: one update step on the one-tensor witness tree,
then a query with a same-shaped gradient. -/
theorem C7_query_preserves_shape_witness :
    (∀ gs ∈ [[wTensor]], gs.length = ([wTensor] : List Tensor).length) ∧
    (∀ gs ∈ [[wTensor]], ∀ j, j < ([wTensor] : List Tensor).length →
      (gs.getD j default).shape =
        (([wTensor] : List Tensor).getD j default).shape) ∧
    ([wTensor] : List Tensor).length = ([wTensor] : List Tensor).length ∧
    (∀ j, j < ([wTensor] : List Tensor).length →
      (([wTensor] : List Tensor).getD j default).shape =
        (([wTensor] : List Tensor).getD j default).shape) ∧
    0 < ([wTensor] : List Tensor).length ∧
    ((queryFn wCfg wRng [wTensor]
        (evolve wCfg wRng [[wTensor]]
          (initState wCfg wRng 0 [wTensor]))).getD 0 default).shape =
      (([wTensor] : List Tensor).getD 0 default).shape :=
  ⟨by decide, by decide, rfl, fun j hj => rfl, by decide,
    C7_query_preserves_shape wCfg wRng 0 [wTensor] [[wTensor]] [wTensor] 0
      (by decide) (by decide) rfl (fun j hj => rfl) (by decide)⟩

/-- Closed witness for C8 at a concrete two-transform flora chain and a
concrete momentum-free adafactor chain, both updated with an empty state
tuple. -/
theorem C8_chain_state_arity_witness :
    ([] : List Nat).length ≠ wFloraChain.size ∧
    ([] : List Nat).length ≠ wAdaChain.size ∧
    ((wFloraChain.initChain 0).length = wFloraChain.size ∧
      wFloraChain.updateChain 7 [] 0 = Except.error chainErrMsg ∧
      (wAdaChain.initChain 0).length = wAdaChain.size ∧
      wAdaChain.updateChain 7 [] 0 false = Except.error chainErrMsg) :=
  ⟨by decide, by decide,
    C8_chain_state_arity wFloraChain wAdaChain 0 0 7 7 [] [] false
      (by decide) (by decide)⟩

end Flora



